import Mathlib

/-!
Shallow embedding of `src/assets/scripts/colors.py`, a code generator that
reads a two-level JSON table of OKLCH colors, converts each entry to linear
sRGB via the `coloraide` library, and prints one Rust constant declaration
per color plus one aggregate declaration.

The script (verbatim behaviour being modelled):

  color_names = []
  with open("colors.json", "r") as f:
      data = json.load(f)
      for color_name in data.keys():
          for brightness in data[color_name]:
              name = f"{color_name}_{brightness}".upper()
              color_names.append(f"Self::{name}")
              oklch = data[color_name][brightness]
              oklch_normalized = [oklch[0] / 100, oklch[1], oklch[2]]
              color = Color("oklch", oklch_normalized)
              rgb = color.convert("srgb-linear").fit("srgb-linear")
              r, g, b = rgb[0], rgb[1], rgb[2]
              print(f"pub const {name}: Self = Self::new({r}, {g}, {b});")
  print(f"pub const ALL: [Self; {len(color_names)}] = {color_names};")

Numbers are modelled as exact rationals (ℚ); the external color library is a
parameter `convert : ℚ × ℚ × ℚ → ℚ × ℚ × ℚ`, and Python float-to-text
formatting is a parameter `fmt : ℚ → String`, since neither is code of this
repository.  The table is an ordered association list because Python dicts
(and `json.load`) preserve the document's insertion order.
-/

namespace Engine4Colors

/-- A JSON value, as loaded by Python's `json.load`: numbers, strings,
booleans, null, arrays, and objects (objects keep document order and have
string keys). -/
inductive Json where
  | num (q : ℚ)
  | str (s : String)
  | boolean (b : Bool)
  | null
  | arr (xs : List Json)
  | obj (kvs : List (String × Json))

/-- Positional lookup in a list. -/
def listNth {α : Type} : List α → Nat → Option α
  | [], _ => none
  | x :: _, 0 => some x
  | _ :: xs, i + 1 => listNth xs i

/-- Python `v[i]` for a literal nonnegative integer index `i`, returning
`none` on any exception: arrays index positionally (IndexError out of
range), strings yield one-character strings, and everything else raises
(TypeError for numbers/booleans/None, KeyError for objects, whose JSON keys
are strings). -/
def pyIndex : Json → Nat → Option Json
  | Json.arr xs, i => listNth xs i
  | Json.str s, i => (listNth s.data i).map (fun c => Json.str (String.mk [c]))
  | _, _ => none

/-- The JSON values Python arithmetic accepts as numbers: numbers, and
booleans (Python `bool` is a subtype of `int`, so `True / 100` succeeds). -/
def asNum : Json → Option ℚ
  | Json.num q => some q
  | Json.boolean b => some (if b then 1 else 0)
  | _ => none

/-- Processing of one color entry `oklch`, in the script's evaluation order:
`oklch[0]`, the division by 100, `oklch[1]`, `oklch[2]`, then the
construction `Color("oklch", oklch_normalized)` which requires the remaining
two coordinates to be numeric.  `none` models the Python exception that
aborts the run. -/
def processEntry (e : Json) : Option (ℚ × ℚ × ℚ) := do
  let j0 ← pyIndex e 0
  let q0 ← asNum j0
  let j1 ← pyIndex e 1
  let j2 ← pyIndex e 2
  let q1 ← asNum j1
  let q2 ← asNum j2
  pure (q0 / 100, q1, q2)

/-- One color family: brightness label → entry, in document order. -/
abbrev Family := List (String × Json)

/-- The loaded table: family name → family, in document order. -/
abbrev ColorTable := List (String × Family)

/-- All (family, brightness, entry) triples in the iteration order of the
script's two nested loops. -/
def colorPairs (t : ColorTable) : List (String × String × Json) :=
  t.flatMap (fun fam => fam.2.map (fun be => (fam.1, be.1, be.2)))

/-- A table on which every entry processes without an exception. -/
def validTable (t : ColorTable) : Bool :=
  (colorPairs t).all (fun p => (processEntry p.2.2).isSome)

/-- Python `str.upper`, character by character (the ASCII range, which is
all the script's key material uses). -/
def pyUpper (s : String) : String :=
  String.mk (s.data.map Char.toUpper)

/-- `f"{color_name}_{brightness}".upper()`. -/
def mkName (family brightness : String) : String :=
  pyUpper (family ++ "_" ++ brightness)

/-- The per-color printed line
`pub const {name}: Self = Self::new({r}, {g}, {b});`. -/
def colorLine (fmt : ℚ → String) (name : String) (rgb : ℚ × ℚ × ℚ) : String :=
  "pub const " ++ name ++ ": Self = Self::new(" ++ fmt rgb.1 ++ ", " ++
    fmt rgb.2.1 ++ ", " ++ fmt rgb.2.2 ++ ");"

/-- The inner loop over one family.  Returns the strings appended to
`color_names`, the lines printed, and whether an exception aborted the loop.
The name is appended to `color_names` before the entry is processed, exactly
as in the script. -/
def genFam (convert : ℚ × ℚ × ℚ → ℚ × ℚ × ℚ) (fmt : ℚ → String)
    (famName : String) : Family → List String × List String × Bool
  | [] => ([], [], false)
  | (bright, e) :: rest =>
    let name := mkName famName bright
    match processEntry e with
    | none => (["Self::" ++ name], [], true)
    | some v =>
      let line := colorLine fmt name (convert v)
      let r := genFam convert fmt famName rest
      (("Self::" ++ name) :: r.1, line :: r.2.1, r.2.2)

/-- The outer loop over the table: an exception in a family aborts the whole
traversal. -/
def genTable (convert : ℚ × ℚ × ℚ → ℚ × ℚ × ℚ) (fmt : ℚ → String) :
    ColorTable → List String × List String × Bool
  | [] => ([], [], false)
  | (famName, fam) :: rest =>
    let r := genFam convert fmt famName fam
    if r.2.2 then r
    else
      let r2 := genTable convert fmt rest
      (r.1 ++ r2.1, r.2.1 ++ r2.2.1, r2.2.2)

/-- Python `repr` of one of the accumulated strings: single-quoted, unless
the string contains a single quote and no double quote, in which case it is
double-quoted.  (Backslash and control-character escaping is not modelled;
no string the script accumulates requires it on the inputs considered
here.) -/
def pyReprStr (s : String) : String :=
  if s.data.contains (Char.ofNat 39) && !(s.data.contains (Char.ofNat 34)) then
    "\x22" ++ s ++ "\x22"
  else
    "\x27" ++ s ++ "\x27"

/-- Python `str` of a list of strings, as produced by
`f"{color_names}"`: `[` + comma-space-separated `repr`s + `]`. -/
def pyListRepr (xs : List String) : String :=
  "[" ++ String.intercalate ", " (xs.map pyReprStr) ++ "]"

/-- The final printed line
`pub const ALL: [Self; {len(color_names)}] = {color_names};`. -/
def allLine (names : List String) : String :=
  "pub const ALL: [Self; " ++ toString names.length ++ "] = " ++
    pyListRepr names ++ ";"

/-- Everything the script writes to stdout on a successfully loaded table:
the per-color lines, then the aggregate line — unless an exception aborted
the loops, in which case only the already-printed lines appear and the
aggregate line is never reached. -/
def scriptOutput (convert : ℚ × ℚ × ℚ → ℚ × ℚ × ℚ) (fmt : ℚ → String)
    (t : ColorTable) : List String :=
  let r := genTable convert fmt t
  if r.2.2 then r.2.1 else r.2.1 ++ [allLine r.1]

/-- The script's input as seen at the top of the run: the input file can be
missing, hold text that is not valid JSON, or load as a table of the
documented two-level object shape. -/
inductive GenInput where
  | missing
  | badJson
  | table (t : ColorTable)

/-- A whole run: the lines printed to stdout and whether the process ended
with an uncaught exception.  A missing file (`open` raises) or malformed
JSON (`json.load` raises) aborts before anything is printed. -/
def runScript (convert : ℚ × ℚ × ℚ → ℚ × ℚ × ℚ) (fmt : ℚ → String) :
    GenInput → List String × Bool
  | GenInput.missing => ([], true)
  | GenInput.badJson => ([], true)
  | GenInput.table t => (scriptOutput convert fmt t, (genTable convert fmt t).2.2)

/-- A JSON number or boolean: exactly the values `processEntry` accepts as
coordinates. -/
def isNumLike : Json → Bool
  | Json.num _ => true
  | Json.boolean _ => true
  | _ => false

/-- An entry the script processes without an exception: an array of at
least three elements whose first three are numeric. -/
def entryWellFormed : Json → Bool
  | Json.arr (a :: b :: c :: _) => isNumLike a && isNumLike b && isNumLike c
  | _ => false

/-- The claim's literal wording: a 3-element numeric sequence. -/
def threeElemNumeric : Json → Bool
  | Json.arr xs => xs.length == 3 && xs.all isNumLike
  | _ => false

/-- Name of a pair as appended to `color_names`. -/
def nameOfPair (p : String × String × Json) : String :=
  "Self::" ++ mkName p.1 p.2.1

/-- Printed line of a pair (on a valid table `getD` never sees its
default). -/
def lineOfPair (convert : ℚ × ℚ × ℚ → ℚ × ℚ × ℚ) (fmt : ℚ → String)
    (p : String × String × Json) : String :=
  colorLine fmt (mkName p.1 p.2.1) (convert ((processEntry p.2.2).getD (0, 0, 0)))

/-!
Spec-modelled conversion.  The OKLCH → linear-sRGB conversion and the gamut
fit live in the external `coloraide` library, not in this repository; the
spec (§4.1) fixes their contract: OKLCH → OKLab via `(L, C·cos H°, C·sin H°)`,
OKLab → LMS′ → cube → linear sRGB with the standard OKLab matrices, then a
clip of each channel into [0, 1].  We model that contract over exact
rationals, leaving cosine and sine of degrees as parameters.
-/

/-- Modelled from the spec: OKLCH to OKLab, `(L, C·cos H°, C·sin H°)`, with
degree-cosine and -sine passed as parameters (they are irrelevant whenever
chroma is zero). -/
def oklchToOklab (cosd sind : ℚ → ℚ) (lch : ℚ × ℚ × ℚ) : ℚ × ℚ × ℚ :=
  (lch.1, lch.2.1 * cosd lch.2.2, lch.2.1 * sind lch.2.2)

/-- Modelled from the spec: OKLab to linear sRGB with the standard published
OKLab matrices (LMS′ from Lab, cube, then LMS to RGB). -/
def oklabToLinearSrgb (lab : ℚ × ℚ × ℚ) : ℚ × ℚ × ℚ :=
  let lp := lab.1 + 0.3963377774 * lab.2.1 + 0.2158037573 * lab.2.2
  let mp := lab.1 - 0.1055613458 * lab.2.1 - 0.0638541728 * lab.2.2
  let sp := lab.1 - 0.0894841775 * lab.2.1 - 1.2914855480 * lab.2.2
  let l := lp ^ 3
  let m := mp ^ 3
  let s := sp ^ 3
  (4.0767416621 * l - 3.3077115913 * m + 0.2309699292 * s,
   -1.2684380046 * l + 2.6097574011 * m - 0.3413193965 * s,
   -0.0041960863 * l - 0.7034186147 * m + 1.7076147010 * s)

/-- Modelled from the spec: clip one channel into the displayable range
[0, 1]. -/
def clip01 (x : ℚ) : ℚ := if x < 0 then 0 else if 1 < x then 1 else x

/-- Modelled from the spec: the gamut fit `fit("srgb-linear")`, clipping
every channel into [0, 1]. -/
def fitSrgbLinear (v : ℚ × ℚ × ℚ) : ℚ × ℚ × ℚ :=
  (clip01 v.1, clip01 v.2.1, clip01 v.2.2)

/-- Modelled from the spec: the full library conversion used by the script,
OKLCH through OKLab to linear sRGB. -/
def convertOklch (cosd sind : ℚ → ℚ) (lch : ℚ × ℚ × ℚ) : ℚ × ℚ × ℚ :=
  oklabToLinearSrgb (oklchToOklab cosd sind lch)

/-! ### Supporting lemmas -/

theorem takeWhile_append_of_stop {α : Type} (p : α → Bool) (l₁ l₂ : List α)
    (h : l₁.all p = false) : (l₁ ++ l₂).takeWhile p = l₁.takeWhile p := by
  induction l₁ with
  | nil => simp at h
  | cons a l ih =>
    cases hpa : p a with
    | false => simp [List.takeWhile_cons, hpa]
    | true =>
      simp only [List.all_cons, hpa, Bool.true_and] at h
      simp [List.takeWhile_cons, hpa, ih h]

theorem colorPairs_cons (n : String) (fam : Family) (rest : ColorTable) :
    colorPairs ((n, fam) :: rest) =
      fam.map (fun be => (n, be.1, be.2)) ++ colorPairs rest := rfl

theorem all_map_comp {α β : Type} (g : α → β) (p : β → Bool) (l : List α) :
    (l.map g).all p = l.all (fun a => p (g a)) := by
  induction l with
  | nil => rfl
  | cons a l ih => simp [ih]

theorem validTable_cons (n : String) (fam : Family) (rest : ColorTable) :
    validTable ((n, fam) :: rest) =
      (fam.all (fun be => (processEntry be.2).isSome) && validTable rest) := by
  rw [validTable, colorPairs_cons, List.all_append, all_map_comp]
  rfl

theorem genFam_err_eq (c : ℚ × ℚ × ℚ → ℚ × ℚ × ℚ) (f : ℚ → String) (n : String)
    (fam : Family) :
    (genFam c f n fam).2.2 = !(fam.all (fun be => (processEntry be.2).isSome)) := by
  induction fam with
  | nil => rfl
  | cons be rest ih =>
    obtain ⟨b, e⟩ := be
    cases hpe : processEntry e with
    | none => simp [genFam, hpe]
    | some v => simp [genFam, hpe, ih]

theorem genFam_lines_eq (c : ℚ × ℚ × ℚ → ℚ × ℚ × ℚ) (f : ℚ → String) (n : String)
    (fam : Family) :
    (genFam c f n fam).2.1 =
      (fam.takeWhile (fun be => (processEntry be.2).isSome)).map
        (fun be => colorLine f (mkName n be.1) (c ((processEntry be.2).getD (0, 0, 0)))) := by
  induction fam with
  | nil => rfl
  | cons be rest ih =>
    obtain ⟨b, e⟩ := be
    cases hpe : processEntry e with
    | none => simp [genFam, hpe, List.takeWhile_cons]
    | some v => simp [genFam, hpe, ih, List.takeWhile_cons]

theorem genFam_lines_ok (c : ℚ × ℚ × ℚ → ℚ × ℚ × ℚ) (f : ℚ → String) (n : String)
    (fam : Family) (h : fam.all (fun be => (processEntry be.2).isSome) = true) :
    (genFam c f n fam).2.1 =
      fam.map (fun be =>
        colorLine f (mkName n be.1) (c ((processEntry be.2).getD (0, 0, 0)))) := by
  induction fam with
  | nil => rfl
  | cons be rest ih =>
    obtain ⟨b, e⟩ := be
    simp only [List.all_cons, Bool.and_eq_true] at h
    obtain ⟨v, hv⟩ := Option.isSome_iff_exists.mp h.1
    simp [genFam, hv, ih h.2]

theorem genFam_names_ok (c : ℚ × ℚ × ℚ → ℚ × ℚ × ℚ) (f : ℚ → String) (n : String)
    (fam : Family) (h : fam.all (fun be => (processEntry be.2).isSome) = true) :
    (genFam c f n fam).1 = fam.map (fun be => "Self::" ++ mkName n be.1) := by
  induction fam with
  | nil => rfl
  | cons be rest ih =>
    obtain ⟨b, e⟩ := be
    simp only [List.all_cons, Bool.and_eq_true] at h
    obtain ⟨v, hv⟩ := Option.isSome_iff_exists.mp h.1
    simp [genFam, hv, ih h.2]

theorem genTable_err_eq (c : ℚ × ℚ × ℚ → ℚ × ℚ × ℚ) (f : ℚ → String)
    (t : ColorTable) : (genTable c f t).2.2 = !(validTable t) := by
  induction t with
  | nil => rfl
  | cons ft rest ih =>
    obtain ⟨n, fam⟩ := ft
    rw [validTable_cons]
    cases hfa : fam.all (fun be => (processEntry be.2).isSome) with
    | false => simp [genTable, genFam_err_eq, hfa]
    | true => simp [genTable, genFam_err_eq, hfa, ih]

theorem genTable_lines_eq (c : ℚ × ℚ × ℚ → ℚ × ℚ × ℚ) (f : ℚ → String)
    (t : ColorTable) :
    (genTable c f t).2.1 =
      ((colorPairs t).takeWhile (fun p => (processEntry p.2.2).isSome)).map
        (lineOfPair c f) := by
  induction t with
  | nil => rfl
  | cons ft rest ih =>
    obtain ⟨n, fam⟩ := ft
    rw [colorPairs_cons]
    cases hfa : fam.all (fun be => (processEntry be.2).isSome) with
    | false =>
      have herr : (genFam c f n fam).2.2 = true := by
        rw [genFam_err_eq, hfa]; rfl
      have hs : ((fam.map (fun be => (n, be.1, be.2))).all
          (fun p => (processEntry p.2.2).isSome)) = false := by
        rw [all_map_comp]; exact hfa
      rw [takeWhile_append_of_stop _ _ _ hs, List.takeWhile_map]
      simp only [genTable, herr, if_true]
      rw [genFam_lines_eq, List.map_map]
      rfl
    | true =>
      have herr : (genFam c f n fam).2.2 = false := by
        rw [genFam_err_eq, hfa]; rfl
      have hp : ∀ a ∈ fam.map (fun be => (n, be.1, be.2)),
          (fun p => (processEntry p.2.2).isSome) a = true := by
        intro a ha
        obtain ⟨be, hbe, rfl⟩ := List.mem_map.mp ha
        exact List.all_eq_true.mp hfa be hbe
      rw [List.takeWhile_append_of_pos hp]
      simp only [genTable, herr, if_false, Bool.false_eq_true]
      rw [genFam_lines_ok c f n fam hfa, List.map_append, List.map_map, ih]
      rfl

theorem genTable_lines_ok (c : ℚ × ℚ × ℚ → ℚ × ℚ × ℚ) (f : ℚ → String)
    (t : ColorTable) (h : validTable t = true) :
    (genTable c f t).2.1 = (colorPairs t).map (lineOfPair c f) := by
  induction t with
  | nil => rfl
  | cons ft rest ih =>
    obtain ⟨n, fam⟩ := ft
    rw [validTable_cons, Bool.and_eq_true] at h
    have herr : (genFam c f n fam).2.2 = false := by
      rw [genFam_err_eq, h.1]; rfl
    rw [colorPairs_cons, List.map_append, List.map_map]
    simp only [genTable, herr, if_false, Bool.false_eq_true]
    rw [genFam_lines_ok c f n fam h.1, ih h.2]
    rfl

theorem genTable_names_ok (c : ℚ × ℚ × ℚ → ℚ × ℚ × ℚ) (f : ℚ → String)
    (t : ColorTable) (h : validTable t = true) :
    (genTable c f t).1 = (colorPairs t).map nameOfPair := by
  induction t with
  | nil => rfl
  | cons ft rest ih =>
    obtain ⟨n, fam⟩ := ft
    rw [validTable_cons, Bool.and_eq_true] at h
    have herr : (genFam c f n fam).2.2 = false := by
      rw [genFam_err_eq, h.1]; rfl
    rw [colorPairs_cons, List.map_append, List.map_map]
    simp only [genTable, herr, if_false, Bool.false_eq_true]
    rw [genFam_names_ok c f n fam h.1, ih h.2]
    rfl

theorem scriptOutput_ok (c : ℚ × ℚ × ℚ → ℚ × ℚ × ℚ) (f : ℚ → String)
    (t : ColorTable) (h : validTable t = true) :
    scriptOutput c f t =
      (colorPairs t).map (lineOfPair c f) ++
        [allLine ((colorPairs t).map nameOfPair)] := by
  have herr : (genTable c f t).2.2 = false := by
    rw [genTable_err_eq, h]; rfl
  simp only [scriptOutput, herr, if_false, Bool.false_eq_true]
  rw [genTable_lines_ok c f t h, genTable_names_ok c f t h]

theorem processEntry_isSome_eq (e : Json) :
    (processEntry e).isSome = entryWellFormed e := by
  cases e with
  | num q => rfl
  | boolean b => rfl
  | null => rfl
  | obj kvs => rfl
  | str s =>
    obtain ⟨l⟩ := s
    cases l with
    | nil => rfl
    | cons ch chs => rfl
  | arr xs =>
    match xs with
    | [] => rfl
    | [a] => cases a <;> rfl
    | [a, b] => cases a <;> cases b <;> rfl
    | a :: b :: ch :: rest => cases a <;> cases b <;> cases ch <;> rfl

/-! ### The claims -/

/-- C1: on a table whose entries all process, the generator emits exactly one
per-color line per (family, brightness) pair, in pair order, of the form
`pub const <IDENTIFIER>: Self = Self::new(<r>, <g>, <b>);`, where the
identifier is exactly `upper(family + "_" + brightness)` and the three
components are the textual rendering of the converted triple passed through
verbatim (no rounding or truncation of the formatter's output). -/
theorem perColor_lines_exact_format (c : ℚ × ℚ × ℚ → ℚ × ℚ × ℚ)
    (f : ℚ → String) (t : ColorTable) (h : validTable t = true) :
    (genTable c f t).2.1 =
      (colorPairs t).map (fun p =>
        "pub const " ++ pyUpper (p.1 ++ "_" ++ p.2.1) ++ ": Self = Self::new(" ++
          f (c ((processEntry p.2.2).getD (0, 0, 0))).1 ++ ", " ++
          f (c ((processEntry p.2.2).getD (0, 0, 0))).2.1 ++ ", " ++
          f (c ((processEntry p.2.2).getD (0, 0, 0))).2.2 ++ ");") := by
  rw [genTable_lines_ok c f t h]
  rfl

theorem perColor_lines_exact_format_witness :
    validTable [("red", [("100", Json.arr [Json.num 50, Json.num 1, Json.num 20])])] = true ∧
    (genTable (fun v => v) (fun _ => "0")
        [("red", [("100", Json.arr [Json.num 50, Json.num 1, Json.num 20])])]).2.1 =
      (colorPairs [("red", [("100", Json.arr [Json.num 50, Json.num 1, Json.num 20])])]).map
        (fun p =>
          "pub const " ++ pyUpper (p.1 ++ "_" ++ p.2.1) ++ ": Self = Self::new(" ++
            (fun _ => "0") ((fun v => v) ((processEntry p.2.2).getD (0, 0, 0))).1 ++ ", " ++
            (fun _ => "0") ((fun v => v) ((processEntry p.2.2).getD (0, 0, 0))).2.1 ++ ", " ++
            (fun _ => "0") ((fun v => v) ((processEntry p.2.2).getD (0, 0, 0))).2.2 ++ ");") :=
  ⟨by decide, perColor_lines_exact_format (fun v => v) (fun _ => "0") _ (by decide)⟩

/-- C2 (code-bug evidence): on a one-color table the aggregate line renders
the accumulated name list through Python list `repr`, so each identifier
appears in single quotes — `[\x27Self::RED_100\x27]` — rather than as the
bare token `Self::RED_100` the declared type `[Self; 1]` requires. -/
theorem aggregate_line_quotes_identifiers :
    scriptOutput (fun v => v) (fun _ => "0")
        [("red", [("100", Json.arr [Json.num 50, Json.num 1, Json.num 20])])] =
      ["pub const RED_100: Self = Self::new(0, 0, 0);",
       "pub const ALL: [Self; 1] = [\x27Self::RED_100\x27];"] := by decide

/-- C3: on every valid table the number of per-color lines equals the number
of (family, brightness) pairs, and the aggregate line declares exactly that
same count as its array length. -/
theorem line_and_aggregate_counts (c : ℚ × ℚ × ℚ → ℚ × ℚ × ℚ)
    (f : ℚ → String) (t : ColorTable) (h : validTable t = true) :
    (genTable c f t).2.1.length = (colorPairs t).length ∧
    scriptOutput c f t =
      (genTable c f t).2.1 ++
        ["pub const ALL: [Self; " ++ toString (colorPairs t).length ++ "] = " ++
          pyListRepr ((colorPairs t).map nameOfPair) ++ ";"] := by
  constructor
  · rw [genTable_lines_ok c f t h, List.length_map]
  · rw [scriptOutput_ok c f t h, genTable_lines_ok c f t h]
    simp [allLine, List.length_map]

theorem line_and_aggregate_counts_witness :
    validTable [("red", [("100", Json.arr [Json.num 50, Json.num 1, Json.num 20])])] = true ∧
    ((genTable (fun v => v) (fun _ => "0")
        [("red", [("100", Json.arr [Json.num 50, Json.num 1, Json.num 20])])]).2.1.length =
      (colorPairs [("red", [("100", Json.arr [Json.num 50, Json.num 1, Json.num 20])])]).length ∧
    scriptOutput (fun v => v) (fun _ => "0")
        [("red", [("100", Json.arr [Json.num 50, Json.num 1, Json.num 20])])] =
      (genTable (fun v => v) (fun _ => "0")
          [("red", [("100", Json.arr [Json.num 50, Json.num 1, Json.num 20])])]).2.1 ++
        ["pub const ALL: [Self; " ++
            toString (colorPairs
              [("red", [("100", Json.arr [Json.num 50, Json.num 1, Json.num 20])])]).length ++
          "] = " ++
          pyListRepr ((colorPairs
              [("red", [("100", Json.arr [Json.num 50, Json.num 1, Json.num 20])])]).map
            nameOfPair) ++ ";"]) :=
  ⟨by decide, line_and_aggregate_counts (fun v => v) (fun _ => "0") _ (by decide)⟩

/-- C4 is false as stated: this entry is a four-element numeric array — not a
3-element numeric sequence — yet the run completes with no failure. -/
theorem extra_element_entry_succeeds :
    threeElemNumeric (Json.arr [Json.num 1, Json.num 2, Json.num 3, Json.num 4]) = false ∧
    (runScript (fun v => v) (fun _ => "0")
        (GenInput.table [("a", [("b",
          Json.arr [Json.num 1, Json.num 2, Json.num 3, Json.num 4])])])).2 = false :=
  ⟨by decide, by decide⟩

/-- C4 (amended): for an input that loads as the documented two-level table,
the run fails exactly when the file is missing, the JSON is malformed, or
some entry is not an array of at least three elements whose first three are
numeric (numbers or booleans; later elements are ignored); and the lines
printed are exactly the per-color lines of the pairs that precede the first
offending entry in iteration order. -/
theorem run_failure_iff_bad_entry (c : ℚ × ℚ × ℚ → ℚ × ℚ × ℚ)
    (f : ℚ → String) (inp : GenInput) :
    ((runScript c f inp).2 = true ↔
      (inp = GenInput.missing ∨ inp = GenInput.badJson ∨
        ∃ t p, inp = GenInput.table t ∧ p ∈ colorPairs t ∧
          entryWellFormed p.2.2 = false)) ∧
    (∀ t, inp = GenInput.table t → (runScript c f inp).2 = true →
      (runScript c f inp).1 =
        ((colorPairs t).takeWhile (fun p => entryWellFormed p.2.2)).map
          (lineOfPair c f)) := by
  have hpred : (fun p : String × String × Json => (processEntry p.2.2).isSome) =
      (fun p => entryWellFormed p.2.2) := by
    funext p
    exact processEntry_isSome_eq p.2.2
  constructor
  · cases inp with
    | missing => simp [runScript]
    | badJson => simp [runScript]
    | table t =>
      simp only [runScript, genTable_err_eq, Bool.not_eq_true']
      constructor
      · intro hv
        refine Or.inr (Or.inr ⟨t, ?_⟩)
        rw [validTable] at hv
        obtain ⟨p, hp, hfail⟩ := List.all_eq_false.mp hv
        refine ⟨p, rfl, hp, ?_⟩
        rw [← processEntry_isSome_eq]
        simpa using hfail
      · rintro (h | h | ⟨t', p, ht, hp, hfail⟩)
        · exact absurd h (by intro h; cases h)
        · exact absurd h (by intro h; cases h)
        · cases ht
          rw [validTable]
          refine List.all_eq_false.mpr ⟨p, hp, ?_⟩
          rw [processEntry_isSome_eq, hfail]
          exact Bool.false_ne_true
  · rintro t rfl herr
    simp only [runScript] at herr ⊢
    simp only [scriptOutput, herr, if_true]
    rw [genTable_lines_eq, hpred]

theorem run_failure_iff_bad_entry_witness :
    (runScript (fun v => v) (fun _ => "0")
      (GenInput.table [("a", [("b", Json.str "oops")])])).2 = true :=
  ((run_failure_iff_bad_entry (fun v => v) (fun _ => "0")
      (GenInput.table [("a", [("b", Json.str "oops")])])).1).mpr
    (Or.inr (Or.inr ⟨[("a", [("b", Json.str "oops")])], ("a", "b", Json.str "oops"),
      rfl, List.Mem.head _, rfl⟩))

/-- C5: the i-th per-color line is exactly the line of the i-th (family,
brightness) pair in the input's family-then-brightness declaration order, so
permuting the input's pairs permutes the output lines identically. -/
theorem output_order_matches_input_order (c : ℚ × ℚ × ℚ → ℚ × ℚ × ℚ)
    (f : ℚ → String) (t t' : ColorTable)
    (h : validTable t = true) (h' : validTable t' = true)
    (hp : (colorPairs t').Perm (colorPairs t)) :
    (genTable c f t).2.1 = (colorPairs t).map (lineOfPair c f) ∧
    ((genTable c f t').2.1).Perm ((genTable c f t).2.1) := by
  refine ⟨genTable_lines_ok c f t h, ?_⟩
  rw [genTable_lines_ok c f t h, genTable_lines_ok c f t' h']
  exact hp.map _

theorem output_order_matches_input_order_witness :
    validTable [("a", [("1", Json.arr [Json.num 1, Json.num 2, Json.num 3])]),
                ("b", [("2", Json.arr [Json.num 4, Json.num 5, Json.num 6])])] = true ∧
    validTable [("b", [("2", Json.arr [Json.num 4, Json.num 5, Json.num 6])]),
                ("a", [("1", Json.arr [Json.num 1, Json.num 2, Json.num 3])])] = true ∧
    ((genTable (fun v => v) (fun _ => "0")
        [("a", [("1", Json.arr [Json.num 1, Json.num 2, Json.num 3])]),
         ("b", [("2", Json.arr [Json.num 4, Json.num 5, Json.num 6])])]).2.1 =
      (colorPairs [("a", [("1", Json.arr [Json.num 1, Json.num 2, Json.num 3])]),
                   ("b", [("2", Json.arr [Json.num 4, Json.num 5, Json.num 6])])]).map
        (lineOfPair (fun v => v) (fun _ => "0")) ∧
    ((genTable (fun v => v) (fun _ => "0")
        [("b", [("2", Json.arr [Json.num 4, Json.num 5, Json.num 6])]),
         ("a", [("1", Json.arr [Json.num 1, Json.num 2, Json.num 3])])]).2.1).Perm
      ((genTable (fun v => v) (fun _ => "0")
        [("a", [("1", Json.arr [Json.num 1, Json.num 2, Json.num 3])]),
         ("b", [("2", Json.arr [Json.num 4, Json.num 5, Json.num 6])])]).2.1)) :=
  ⟨by decide, by decide,
    output_order_matches_input_order (fun v => v) (fun _ => "0") _ _
      (by decide) (by decide)
      (List.Perm.swap ("a", "1", Json.arr [Json.num 1, Json.num 2, Json.num 3])
        ("b", "2", Json.arr [Json.num 4, Json.num 5, Json.num 6]) [])⟩

/-- C6: an OKLCH entry `[L, C, H]` is normalized to `[L/100, C, H]` —
lightness rescaled from the 0–100 scale, chroma and hue passed through
unchanged — and that normalized triple is exactly what the generator hands
to the conversion. -/
theorem lightness_normalization (c : ℚ × ℚ × ℚ → ℚ × ℚ × ℚ)
    (f : ℚ → String) (n b : String) (L C H : ℚ) :
    processEntry (Json.arr [Json.num L, Json.num C, Json.num H]) =
      some (L / 100, C, H) ∧
    genFam c f n [(b, Json.arr [Json.num L, Json.num C, Json.num H])] =
      (["Self::" ++ mkName n b],
       [colorLine f (mkName n b) (c (L / 100, C, H))], false) :=
  ⟨rfl, rfl⟩

/-- C7: a run is a pure function of the loaded input: two runs on identical
input contents print identical output. -/
theorem generator_deterministic (c : ℚ × ℚ × ℚ → ℚ × ℚ × ℚ)
    (f : ℚ → String) (i₁ i₂ : GenInput) (h : i₁ = i₂) :
    runScript c f i₁ = runScript c f i₂ := by
  rw [h]

theorem generator_deterministic_witness :
    runScript (fun v => v) (fun _ => "0")
        (GenInput.table [("red", [("100", Json.arr [Json.num 50, Json.num 1, Json.num 20])])]) =
      runScript (fun v => v) (fun _ => "0")
        (GenInput.table [("red", [("100", Json.arr [Json.num 50, Json.num 1, Json.num 20])])]) :=
  generator_deterministic (fun v => v) (fun _ => "0") _ _ rfl

/-- C8: whatever triple the conversion produces for an entry — inside the
gamut or far outside it — every component of the spec-modelled
`fit("srgb-linear")` result lies in [0, 1]. -/
theorem fitted_components_in_range (convert : ℚ × ℚ × ℚ → ℚ × ℚ × ℚ)
    (lch : ℚ × ℚ × ℚ) :
    0 ≤ (fitSrgbLinear (convert lch)).1 ∧ (fitSrgbLinear (convert lch)).1 ≤ 1 ∧
    0 ≤ (fitSrgbLinear (convert lch)).2.1 ∧ (fitSrgbLinear (convert lch)).2.1 ≤ 1 ∧
    0 ≤ (fitSrgbLinear (convert lch)).2.2 ∧ (fitSrgbLinear (convert lch)).2.2 ≤ 1 := by
  have hc : ∀ x : ℚ, 0 ≤ clip01 x ∧ clip01 x ≤ 1 := by
    intro x
    unfold clip01
    split_ifs with h1 h2
    · exact ⟨le_refl 0, zero_le_one⟩
    · exact ⟨zero_le_one, le_refl 1⟩
    · exact ⟨le_of_not_lt h1, le_of_not_lt h2⟩
  exact ⟨(hc _).1, (hc _).2, (hc _).1, (hc _).2, (hc _).1, (hc _).2⟩

/-- C9: the fixed input triple [100, 0, 0] normalizes to (1, 0, 0), and the
spec-modelled conversion sends it exactly to linear-sRGB white (1, 1, 1) —
for every model of degree-cosine and -sine, since chroma is zero — and the
gamut fit leaves it unchanged. -/
theorem white_maps_to_unit_rgb (cosd sind : ℚ → ℚ) :
    processEntry (Json.arr [Json.num 100, Json.num 0, Json.num 0]) =
      some (1, 0, 0) ∧
    fitSrgbLinear (convertOklch cosd sind (1, 0, 0)) = (1, 1, 1) := by
  constructor
  · show some ((100 : ℚ) / 100, (0 : ℚ), (0 : ℚ)) = some (1, 0, 0)
    norm_num
  · simp only [convertOklch, oklchToOklab, oklabToLinearSrgb, fitSrgbLinear,
      clip01, zero_mul, mul_zero]
    norm_num

/-- C10: a table with no (family, brightness) pairs — no families, or every
family empty — yields no per-color lines and exactly the single line
`pub const ALL: [Self; 0] = [];`. -/
theorem empty_table_aggregate_only (c : ℚ × ℚ × ℚ → ℚ × ℚ × ℚ)
    (f : ℚ → String) (t : ColorTable) (h : ∀ fam ∈ t, fam.2 = ([] : Family)) :
    scriptOutput c f t = ["pub const ALL: [Self; 0] = [];"] := by
  have hp : colorPairs t = [] := by
    induction t with
    | nil => rfl
    | cons ft rest ih =>
      have h1 : ft.2 = ([] : Family) := h ft (List.mem_cons_self _ _)
      have h2 : ∀ fam ∈ rest, fam.2 = ([] : Family) := by
        intro fam hm
        exact h fam (List.mem_cons_of_mem _ hm)
      obtain ⟨n, fam⟩ := ft
      rw [colorPairs_cons]
      simp only at h1
      rw [h1, ih h2]
      rfl
  have hv : validTable t = true := by
    rw [validTable, hp]
    rfl
  rw [scriptOutput_ok c f t hv, hp]
  rfl

theorem empty_table_aggregate_only_witness :
    scriptOutput (fun v => v) (fun _ => "0") [("empty", [])] =
      ["pub const ALL: [Self; 0] = [];"] :=
  empty_table_aggregate_only (fun v => v) (fun _ => "0") _
    (by
      intro fam hm
      rw [List.mem_singleton.mp hm])

end Engine4Colors
